import Mathlib

/-!
Verification of the ELM (Extreme Learning Machine) notebook core.

The source program (src/elm/elm-tutorial.ipynb) defines, at module level:
  input_weights = np.random.normal(size=[input_size, hidden_size])
  biases       = np.random.normal(size=[hidden_size])
  def relu(x): return np.maximum(x, 0, x)
  def hidden_nodes(X):
      G = np.dot(X, input_weights)
      G = G + biases
      H = relu(G)
      return H
  output_weights = np.dot(pinv2(hidden_nodes(X_train)), y_train)
  def predict(X):
      out = hidden_nodes(X)
      out = np.dot(out, output_weights)
      return out
and, in the preprocessing cell,
  scaler = StandardScaler()
  X_train = scaler.fit_transform(train.values[:,1:])
  X_test = scaler.fit_transform(test.values[:,1:])

We embed real-valued numpy arrays as lists of lists of rationals
(the spec's data model is over the reals; ℚ keeps everything
computable).  Calling `np.dot` on 2-D arrays raises a ValueError when
the inner dimensions disagree; we embed that as an `Except` error named
`shapeMismatch` after the spec's taxonomy.  Reading the module-level
name `output_weights` before the solve line has run raises a NameError
in Python; in the state model below that global is an `Option`, and the
read failure is the error the spec names `modelNotFitted`.  The library
routines the notebook delegates to (`scipy.linalg.pinv2`, the sklearn
scaler's statistics) enter the embedding as function parameters.

Because `relu` writes through its argument, array identity matters for
the frame-effect claims; for those we additionally model numpy arrays
as cells of a heap addressed by allocation order (`np.dot` and the
broadcast `+` allocate fresh cells, `np.maximum(_, _, out)` overwrites
the cell of `out`).
-/

/- ### Array values and pure operations -/

/-- A 2-D numpy array value: a list of rows of rationals. -/
abbrev Val := List (List ℚ)

/-- Row count of a 2-D array, `A.shape[0]`. -/
def Val.rows (A : Val) : Nat := A.length

/-- Column count of a (rectangular, nonempty) 2-D array, `A.shape[1]`:
the length of the first row. -/
def Val.cols (A : Val) : Nat := (A.headD []).length

/-- Shape predicate: `A` is an `m × n` array — it has `m` rows and each
row has `n` entries. -/
def HasShape (A : Val) (m n : Nat) : Prop :=
  A.length = m ∧ ∀ r ∈ A, r.length = n

instance (A : Val) (m n : Nat) : Decidable (HasShape A m n) := by
  unfold HasShape; infer_instance

/-- Dot product of two rows (of equal length in all uses). -/
def dotProd (u v : List ℚ) : ℚ := (List.zipWith (· * ·) u v).sum

/-- Column `j` of a 2-D array. -/
def Val.col (B : Val) (j : Nat) : List ℚ := B.map (fun r => r.getD j 0)

/-- Mathematical matrix product of `A` (m × k) and `B` (k × c). -/
def matMul (A B : Val) : Val :=
  A.map (fun r => (List.range (Val.cols B)).map (fun j => dotProd r (Val.col B j)))

/-- Transpose of a rectangular 2-D array. -/
def transposeVal (A : Val) : Val :=
  (List.range (Val.cols A)).map (fun j => Val.col A j)

/-- Errors of the embedded program, named after the spec's taxonomy.
Here `shapeMismatch` embeds the ValueError numpy raises in `np.dot`
when the inner dimensions disagree, and `modelNotFitted` embeds the
NameError Python raises when `predict` reads the global
`output_weights` before the solve line has assigned it. -/
inductive Err where
  | shapeMismatch
  | modelNotFitted
deriving DecidableEq, Repr

/-- Embedding of `np.dot(A, B)` on 2-D arrays: checks the inner
dimensions and either returns the matrix product or raises. -/
def npDot (A B : Val) : Except Err Val :=
  if Val.cols A = B.length then .ok (matMul A B) else .error .shapeMismatch

/-- Elementwise value computed by `np.maximum(x, 0, ...)`: the
rectifier max(value, 0) applied to every entry. -/
def reluVal (x : Val) : Val := x.map (fun r => r.map (fun a => max a 0))

/-- Broadcast addition `G + biases` of a 1-D array of length n_hidden
onto every row of an (n, n_hidden) array. -/
def addBias (G : Val) (b : List ℚ) : Val :=
  G.map (fun r => List.zipWith (· + ·) r b)

/-- Value semantics of `hidden_nodes(X)` from the notebook, as a
function of the module-level `input_weights` and `biases`:
`G = np.dot(X, input_weights); G = G + biases; H = relu(G); return H`. -/
def hidden_nodes (W : Val) (b : List ℚ) (X : Val) : Except Err Val :=
  match npDot X W with
  | .error e => .error e
  | .ok G => .ok (reluVal (addBias G b))

/- ### Output solver -/

/-- Predicate: `P` is the Moore–Penrose pseudo-inverse of `H`, stated
as the four Penrose conditions.  This is the documented contract of the
library call `scipy.linalg.pinv2` (an SVD-based pseudo-inverse with
small singular values cut off), which the notebook delegates to. -/
def IsPseudoInverse (H P : Val) : Prop :=
  matMul (matMul H P) H = H ∧ matMul (matMul P H) P = P ∧
  transposeVal (matMul H P) = matMul H P ∧
  transposeVal (matMul P H) = matMul P H

instance (H P : Val) : Decidable (IsPseudoInverse H P) := by
  unfold IsPseudoInverse; infer_instance

/-- Value semantics of the notebook's solve expression
`np.dot(pinv2(H), Y)`, as a function of the library routine `pinv2`,
which is passed in as the function `pinv`. -/
def solveCore (pinv : Val → Val) (H Y : Val) : Except Err Val :=
  npDot (pinv H) Y

/- ### Module-level state -/

/-- The module-level state of the notebook relevant to the core: the
fixed globals `input_weights` and `biases`, and the global
`output_weights`, which is unbound (reading it raises NameError) until
the solve line has assigned it. -/
structure GState where
  input_weights : Val
  biases : List ℚ
  output_weights : Option Val
deriving DecidableEq, Repr

/-- Value semantics of `predict(X)`:
`out = hidden_nodes(X); out = np.dot(out, output_weights); return out`.
The global `output_weights` is read at the `np.dot` call; if the solve
line has never run, that name is unbound and the call fails. -/
def predict (σ : GState) (X : Val) : Except Err Val :=
  match hidden_nodes σ.input_weights σ.biases X with
  | .error e => .error e
  | .ok out =>
    match σ.output_weights with
    | none => .error .modelNotFitted
    | some Wout => npDot out Wout

/-- The notebook's solve line as a state transition:
`output_weights = np.dot(pinv2(hidden_nodes(X_train)), y_train)`.
If the right-hand side raises, the assignment never executes and the
module state is left exactly as it was. -/
def solveRun (pinv : Val → Val) (σ : GState) (Xtrain Ytrain : Val) :
    GState × Except Err Unit :=
  match hidden_nodes σ.input_weights σ.biases Xtrain with
  | .error e => (σ, .error e)
  | .ok H =>
    match solveCore pinv H Ytrain with
    | .error e => (σ, .error e)
    | .ok W => ({ σ with output_weights := some W }, .ok ())

/-- The function `predict` as a state transition: its body only reads
the module globals and assigns none of them, so the module state passes
through unchanged whatever the outcome. -/
def predictRun (σ : GState) (X : Val) : GState × Except Err Val :=
  (σ, predict σ X)

/- ### Heap model of numpy arrays -/

/-- A heap object: a 2-D array or a 1-D array. -/
inductive Obj where
  | mat (v : Val)
  | vec (v : List ℚ)
deriving DecidableEq, Repr

/-- The numpy heap: array objects addressed by allocation index. -/
abbrev Heap := List Obj

/-- Read the 2-D array stored at reference `i`. -/
def Heap.matAt (σ : Heap) (i : Nat) : Val :=
  match σ.getD i (Obj.mat []) with
  | .mat v => v
  | .vec _ => []

/-- Read the 1-D array stored at reference `i`. -/
def Heap.vecAt (σ : Heap) (i : Nat) : List ℚ :=
  match σ.getD i (Obj.mat []) with
  | .vec v => v
  | .mat _ => []

/-- Allocate a fresh array object, returning the new heap and the
reference to the object. -/
def Heap.alloc (σ : Heap) (o : Obj) : Heap × Nat := (σ ++ [o], σ.length)

/-- Overwrite the array object stored at an existing reference. -/
def Heap.write (σ : Heap) (i : Nat) (o : Obj) : Heap := σ.set i o

/-- The notebook's `relu(x) = np.maximum(x, 0, x)` at the heap level:
the elementwise maximum of the array at `x` and 0 is written back into
the argument array (the third positional argument of `np.maximum` is
its output buffer), and the argument reference itself is returned. -/
def relu (σ : Heap) (x : Nat) : Heap × Nat :=
  (σ.write x (Obj.mat (reluVal (σ.matAt x))), x)

/-- The notebook's `hidden_nodes(X)` at the heap level, where `w`, `b`,
`x` are the references of `input_weights`, `biases` and the argument
`X`: `np.dot` and `G + biases` allocate fresh arrays, then `relu`
mutates the fresh temporary in place.  On a shape error the exception
propagates with the heap untouched. -/
def hidden_nodesS (σ : Heap) (w b x : Nat) : Heap × Except Err Nat :=
  match npDot (σ.matAt x) (σ.matAt w) with
  | .error e => (σ, .error e)
  | .ok G0 =>
    let p1 := σ.alloc (Obj.mat G0)
    let p2 := p1.1.alloc (Obj.mat (addBias (p1.1.matAt p1.2) (p1.1.vecAt b)))
    let p3 := relu p2.1 p2.2
    (p3.1, .ok p3.2)

/-- The mathematical value `hidden_nodes` leaves in the returned array,
or `none` when the call raises. -/
def hidden_value (σ : Heap) (w b x : Nat) : Option Val :=
  match hidden_nodesS σ w b x with
  | (σ2, .ok h) => some (σ2.matAt h)
  | (_, .error _) => none

/- ### Feature scaling -/

/-- The state of a fitted or unfitted sklearn scaler object: its
computed per-split statistics, if any.  The statistics type and the
library's fitting and transforming routines are parameters of the
embedding. -/
structure Scaler (S : Type) where
  stats : Option S

/-- The call `scaler.fit_transform(X)`: refits the scaler's statistics
on `X` itself (overwriting whatever was fitted before) and returns `X`
transformed with those freshly fitted statistics. -/
def fitTransform {S : Type} (fitStats : Val → S) (apply : S → Val → Val)
    (_sc : Scaler S) (X : Val) : Scaler S × Val :=
  (⟨some (fitStats X)⟩, apply (fitStats X) X)

/-- The notebook's preprocessing of the two feature matrices:
`scaler = StandardScaler()`, then
`X_train = scaler.fit_transform(train_features)` and
`X_test = scaler.fit_transform(test_features)` — one scaler object, two
independent `fit_transform` calls. -/
def prepFeatures {S : Type} (fitStats : Val → S) (apply : S → Val → Val)
    (trainF testF : Val) : Val × Val :=
  let sc0 : Scaler S := ⟨none⟩
  let p1 := fitTransform fitStats apply sc0 trainF
  let p2 := fitTransform fitStats apply p1.1 testF
  (p1.2, p2.2)

/- ### Shape lemmas -/

lemma cols_of_hasShape {B : Val} {k c : Nat} (h : HasShape B k c) (hk : 0 < k) :
    Val.cols B = c := by
  obtain ⟨hlen, hrows⟩ := h
  cases B with
  | nil => simp at hlen; omega
  | cons r t => exact hrows r (List.mem_cons_self r t)

lemma matMul_shape {A B : Val} {m k c : Nat}
    (hA : HasShape A m k) (hB : HasShape B k c) (hk : 0 < k) :
    HasShape (matMul A B) m c := by
  constructor
  · simpa [matMul] using hA.1
  · intro r hr
    simp only [matMul, List.mem_map] at hr
    obtain ⟨a, _, rfl⟩ := hr
    simp [cols_of_hasShape hB hk]

lemma addBias_shape {G : Val} {m h : Nat} {b : List ℚ}
    (hG : HasShape G m h) (hb : b.length = h) :
    HasShape (addBias G b) m h := by
  constructor
  · simpa [addBias] using hG.1
  · intro r hr
    simp only [addBias, List.mem_map] at hr
    obtain ⟨g, hg, rfl⟩ := hr
    simp [hG.2 g hg, hb]

lemma reluVal_shape {A : Val} {m n : Nat} (hA : HasShape A m n) :
    HasShape (reluVal A) m n := by
  constructor
  · simpa [reluVal] using hA.1
  · intro r hr
    simp only [reluVal, List.mem_map] at hr
    obtain ⟨a, ha, rfl⟩ := hr
    simp [hA.2 a ha]

lemma reluVal_nonneg {A : Val} : ∀ r ∈ reluVal A, ∀ v ∈ r, 0 ≤ v := by
  intro r hr v hv
  simp only [reluVal, List.mem_map] at hr
  obtain ⟨a, _, rfl⟩ := hr
  simp only [List.mem_map] at hv
  obtain ⟨w, _, rfl⟩ := hv
  exact le_max_right w 0

lemma hidden_nodes_ok {W : Val} {b : List ℚ} {X : Val} {f h n : Nat}
    (hW : HasShape W f h) (hX : HasShape X n f) (hn : 0 < n) :
    hidden_nodes W b X = .ok (reluVal (addBias (matMul X W) b)) := by
  have hc : Val.cols X = W.length := by
    rw [cols_of_hasShape hX hn, hW.1]
  simp [hidden_nodes, npDot, hc]

/- ### Heap lemmas -/

lemma getD_set_ne {σ : Heap} {i j : Nat} (o d : Obj) (h : j ≠ i) :
    (σ.set i o).getD j d = σ.getD j d := by
  simp [List.getD, List.getElem?_set_ne (Ne.symm h)]

lemma getD_set_self {σ : Heap} {i : Nat} (o d : Obj) (h : i < σ.length) :
    (σ.set i o).getD i d = o := by
  simp [List.getD, List.getElem?_set_eq_of_lt o h]

lemma getD_append_left {σ τ : Heap} {j : Nat} (d : Obj) (h : j < σ.length) :
    (σ ++ τ).getD j d = σ.getD j d := by
  simp [List.getD, List.getElem?_append_left h]

lemma getD_append_last {σ : Heap} (a d : Obj) :
    (σ ++ [a]).getD σ.length d = a := by
  simp [List.getD, List.getElem?_append_right (Nat.le_refl _)]

lemma matAt_append_left {σ : Heap} {j : Nat} (τ : Heap) (h : j < σ.length) :
    Heap.matAt (σ ++ τ) j = σ.matAt j := by
  unfold Heap.matAt
  rw [getD_append_left _ h]

lemma vecAt_append_left {σ : Heap} {j : Nat} (τ : Heap) (h : j < σ.length) :
    Heap.vecAt (σ ++ τ) j = σ.vecAt j := by
  unfold Heap.vecAt
  rw [getD_append_left _ h]

lemma matAt_append_last {σ : Heap} (v : Val) :
    Heap.matAt (σ ++ [Obj.mat v]) σ.length = v := by
  unfold Heap.matAt
  rw [getD_append_last]

lemma matAt_set_self (σ : Heap) (x : Nat) (v : Val) (h : x < σ.length) :
    Heap.matAt (σ.set x (Obj.mat v)) x = v := by
  unfold Heap.matAt
  rw [getD_set_self _ _ h]

lemma set_append_last (τ : Heap) (o o2 : Obj) :
    (τ ++ [o]).set τ.length o2 = τ ++ [o2] := by
  induction τ with
  | nil => rfl
  | cons a t ih =>
    simp only [List.cons_append, List.length_cons, List.set]
    exact congrArg (fun l => a :: l) ih

lemma matAt_append2_last (σ : Heap) (o : Obj) (v : Val) :
    Heap.matAt (σ ++ [o] ++ [Obj.mat v]) (σ.length + 1) = v := by
  have h : σ.length + 1 = (σ ++ [o]).length := by simp
  rw [h]
  exact matAt_append_last v

lemma set_append2_last (σ : Heap) (o o1 o2 : Obj) :
    (σ ++ [o] ++ [o1]).set (σ.length + 1) o2 = σ ++ [o] ++ [o2] := by
  have h : σ.length + 1 = (σ ++ [o]).length := by simp
  rw [h]
  exact set_append_last (σ ++ [o]) o1 o2

lemma matAt_append_pair_last (σ : Heap) (o : Obj) (v : Val) :
    Heap.matAt (σ ++ [o, Obj.mat v]) (σ.length + 1) = v := by
  have h : σ ++ [o, Obj.mat v] = σ ++ [o] ++ [Obj.mat v] := by simp
  rw [h]
  exact matAt_append2_last σ o v

/-- On a successful run, `hidden_nodes` extends the heap by exactly the
two temporaries it allocates, the second one already rectified in place. -/
lemma hidden_nodesS_ok {σ : Heap} {w b x : Nat} {G0 : Val}
    (hb : b < σ.length)
    (hdot : npDot (σ.matAt x) (σ.matAt w) = .ok G0) :
    hidden_nodesS σ w b x =
      (σ ++ [Obj.mat G0] ++ [Obj.mat (reluVal (addBias G0 (σ.vecAt b)))],
       .ok (σ.length + 1)) := by
  have hlen : (σ ++ [Obj.mat G0]).length = σ.length + 1 := by simp
  simp only [hidden_nodesS, hdot, Heap.alloc, relu, Heap.write, hlen,
    matAt_append_last, vecAt_append_left _ hb]
  rw [matAt_append2_last, set_append2_last]

/-- The value `hidden_nodes` computes is a function of the values of
the three arrays it reads. -/
lemma hidden_value_eq (σ : Heap) (w b x : Nat) (hb : b < σ.length) :
    hidden_value σ w b x =
      match npDot (σ.matAt x) (σ.matAt w) with
      | .ok G => some (reluVal (addBias G (σ.vecAt b)))
      | .error _ => none := by
  cases hdot : npDot (σ.matAt x) (σ.matAt w) with
  | error e => simp [hidden_value, hidden_nodesS, hdot]
  | ok G =>
    simp [hidden_value, hidden_nodesS_ok hb hdot, matAt_append2_last,
      matAt_append_pair_last]

/-- The heap-level `hidden_nodes` never changes an array that existed
before the call: the in-place `relu` hits only the freshly allocated
temporary. -/
lemma hidden_nodesS_frame (σ : Heap) (w b x : Nat) :
    ∀ j < σ.length,
      (hidden_nodesS σ w b x).1.getD j (Obj.mat []) = σ.getD j (Obj.mat []) := by
  intro j hj
  cases hdot : npDot (σ.matAt x) (σ.matAt w) with
  | error e => simp [hidden_nodesS, hdot]
  | ok G =>
    simp only [hidden_nodesS, hdot, Heap.alloc, relu, Heap.write]
    have hne : j ≠ (σ ++ [Obj.mat G]).length := by simp; omega
    have hj1 : j < (σ ++ [Obj.mat G]).length := by simp; omega
    rw [getD_set_ne _ _ hne, getD_append_left _ hj1, getD_append_left _ hj]

/- ### State-transition lemmas -/

lemma solveRun_preserves_params (pinv : Val → Val) (σ : GState) (X Y : Val) :
    (solveRun pinv σ X Y).1.input_weights = σ.input_weights ∧
    (solveRun pinv σ X Y).1.biases = σ.biases := by
  cases hh : hidden_nodes σ.input_weights σ.biases X with
  | error e => simp [solveRun, hh]
  | ok H =>
    cases hs : solveCore pinv H Y with
    | error e => simp [solveRun, hh, hs]
    | ok W => simp [solveRun, hh, hs]

lemma solveRun_error_id (pinv : Val → Val) (σ : GState) (X Y : Val) (e : Err)
    (h : (solveRun pinv σ X Y).2 = .error e) : (solveRun pinv σ X Y).1 = σ := by
  cases hh : hidden_nodes σ.input_weights σ.biases X with
  | error e2 => simp [solveRun, hh]
  | ok H =>
    cases hs : solveCore pinv H Y with
    | error e2 => simp [solveRun, hh, hs]
    | ok W => simp [solveRun, hh, hs] at h

/- ### C1 -/

/-- C1: for every input matrix X of shape (n, n_features),
`hidden_nodes` (the spec's Project) returns the elementwise rectifier
max(·, 0) applied to X·W_in + b; the result has shape (n, n_hidden) and
every entry is ≥ 0. -/
theorem project_rectifier_shape_nonneg
    (W : Val) (b : List ℚ) (X : Val) (f h n : Nat)
    (hW : HasShape W f h) (hb : b.length = h) (hX : HasShape X n f)
    (hf : 0 < f) (hn : 0 < n) :
    hidden_nodes W b X = .ok (reluVal (addBias (matMul X W) b)) ∧
    HasShape (reluVal (addBias (matMul X W) b)) n h ∧
    ∀ r ∈ reluVal (addBias (matMul X W) b), ∀ v ∈ r, 0 ≤ v := by
  refine ⟨hidden_nodes_ok hW hX hn, ?_, reluVal_nonneg⟩
  exact reluVal_shape (addBias_shape (matMul_shape hX hW hf) hb)

/-- Witness for C1 at W = [[1]], b = [0], X = [[-2]]. -/
theorem project_rectifier_shape_nonneg_witness :
    hidden_nodes [[(1 : ℚ)]] [0] [[-2]] =
      .ok (reluVal (addBias (matMul [[(-2 : ℚ)]] [[1]]) [0])) ∧
    HasShape (reluVal (addBias (matMul [[(-2 : ℚ)]] [[1]]) [0])) 1 1 :=
  ⟨(project_rectifier_shape_nonneg [[(1 : ℚ)]] [0] [[-2]] 1 1 1
      (by decide) (by decide) (by decide) (by decide) (by decide)).1,
   (project_rectifier_shape_nonneg [[(1 : ℚ)]] [0] [[-2]] 1 1 1
      (by decide) (by decide) (by decide) (by decide) (by decide)).2.1⟩

/- ### C2 -/

/-- C2: for H of shape (n, n_hidden) and Y of shape (n, n_classes) with
matching row count, the solve step computes W_out = pinv(H)·Y — `pinv`
being the library's Moore–Penrose pseudo-inverse — and the result has
shape (n_hidden, n_classes). -/
theorem solve_pinv_product_shape
    (pinv : Val → Val) (H Y : Val) (n hdim c : Nat)
    (hH : HasShape H n hdim) (hY : HasShape Y n c)
    (hP : HasShape (pinv H) hdim n) (hmp : IsPseudoInverse H (pinv H))
    (hh : 0 < hdim) (hn : 0 < n) :
    solveCore pinv H Y = .ok (matMul (pinv H) Y) ∧
    HasShape (matMul (pinv H) Y) hdim c := by
  have hc : Val.cols (pinv H) = Y.length := by
    rw [cols_of_hasShape hP hh, hY.1]
  exact ⟨by simp [solveCore, npDot, hc], matMul_shape hP hY hn⟩

/-- Witness for C2 at H = [[1]], pinv H = [[1]], Y = [[2]]. -/
theorem solve_pinv_product_shape_witness :
    solveCore (fun _ => [[(1 : ℚ)]]) [[(1 : ℚ)]] [[2]] =
      .ok (matMul [[(1 : ℚ)]] [[2]]) ∧
    HasShape (matMul [[(1 : ℚ)]] [[2]]) 1 1 :=
  solve_pinv_product_shape (fun _ => [[(1 : ℚ)]]) [[(1 : ℚ)]] [[2]] 1 1 1
    (by decide) (by decide) (by decide)
    (by norm_num [IsPseudoInverse, matMul, transposeVal, Val.cols, Val.col,
      dotProd, List.range_succ])
    (by decide) (by decide)

/- ### C3 -/

/-- C3: on a fitted model, `predict`(X) returns exactly
Project(X)·W_out — the hidden activation being recomputed from the X of
this call, no hidden state being stored in `GState` — and the scores
have shape (n, n_classes). -/
theorem predict_is_project_times_wout
    (σ : GState) (X Wout : Val) (f hdim n c : Nat)
    (hfit : σ.output_weights = some Wout)
    (hW : HasShape σ.input_weights f hdim) (hb : σ.biases.length = hdim)
    (hWout : HasShape Wout hdim c) (hX : HasShape X n f)
    (hf : 0 < f) (hn : 0 < n) (hh : 0 < hdim) :
    predict σ X =
      .ok (matMul (reluVal (addBias (matMul X σ.input_weights) σ.biases)) Wout) ∧
    HasShape (matMul (reluVal (addBias (matMul X σ.input_weights) σ.biases)) Wout)
      n c := by
  have hHsh : HasShape (reluVal (addBias (matMul X σ.input_weights) σ.biases)) n hdim :=
    reluVal_shape (addBias_shape (matMul_shape hX hW hf) hb)
  have hc : Val.cols (reluVal (addBias (matMul X σ.input_weights) σ.biases))
      = Wout.length := by
    rw [cols_of_hasShape hHsh hn, hWout.1]
  refine ⟨?_, matMul_shape hHsh hWout hh⟩
  rw [predict, hidden_nodes_ok hW hX hn, hfit]
  simp [npDot, hc]

/-- Witness for C3 at a fitted 1-feature, 1-hidden, 1-class model. -/
theorem predict_is_project_times_wout_witness :
    predict ⟨[[(1 : ℚ)]], [0], some [[3]]⟩ [[2]] =
      .ok (matMul (reluVal (addBias (matMul [[(2 : ℚ)]] [[1]]) [0])) [[3]]) ∧
    HasShape (matMul (reluVal (addBias (matMul [[(2 : ℚ)]] [[1]]) [0])) [[3]]) 1 1 :=
  predict_is_project_times_wout ⟨[[(1 : ℚ)]], [0], some [[3]]⟩ [[2]] [[3]] 1 1 1 1
    (by decide) (by decide) (by decide) (by decide) (by decide)
    (by decide) (by decide) (by decide)

/- ### C4 -/

/-- C4: if `predict` runs while `output_weights` has never been set by
a solve, it fails with the ModelNotFitted error (the unbound global). -/
theorem predict_unfitted_fails
    (σ : GState) (X : Val) (f hdim n : Nat)
    (hunfit : σ.output_weights = none)
    (hW : HasShape σ.input_weights f hdim) (hX : HasShape X n f)
    (hn : 0 < n) :
    predict σ X = .error .modelNotFitted := by
  rw [predict, hidden_nodes_ok hW hX hn, hunfit]

/-- Witness for C4 at an unfitted 1-feature model. -/
theorem predict_unfitted_fails_witness :
    predict ⟨[[(1 : ℚ)]], [0], none⟩ [[2]] = .error .modelNotFitted :=
  predict_unfitted_fails ⟨[[(1 : ℚ)]], [0], none⟩ [[2]] 1 1 1
    (by decide) (by decide) (by decide) (by decide)

/- ### C5 -/

/-- C5: incompatible dimensions make each operation fail with the
ShapeMismatch error: Project and Predict when X's column count differs
from n_features, and the solve step when H and Y disagree on row count. -/
theorem shape_mismatch_errors
    (W : Val) (b : List ℚ) (X : Val) (σ : GState)
    (pinv : Val → Val) (H Y : Val)
    (n k f hdim m hh m2 c : Nat)
    (hW : HasShape W f hdim) (hX : HasShape X n k) (hn : 0 < n) (hk : k ≠ f)
    (hσ : σ.input_weights = W)
    (hH : HasShape H m hh) (hP : HasShape (pinv H) hh m)
    (hY : HasShape Y m2 c) (hm : m ≠ m2) (hh0 : 0 < hh) :
    hidden_nodes W b X = .error .shapeMismatch ∧
    predict σ X = .error .shapeMismatch ∧
    solveCore pinv H Y = .error .shapeMismatch := by
  have hproj : ∀ b0 : List ℚ, hidden_nodes W b0 X = .error .shapeMismatch := by
    intro b0
    have hc : Val.cols X ≠ W.length := by
      rw [cols_of_hasShape hX hn, hW.1]; exact hk
    simp [hidden_nodes, npDot, hc]
  refine ⟨hproj b, ?_, ?_⟩
  · rw [predict, hσ, hproj σ.biases]
  · have hc : Val.cols (pinv H) ≠ Y.length := by
      rw [cols_of_hasShape hP hh0, hY.1]; exact hm
    simp [solveCore, npDot, hc]

/-- Witness for C5: a 2-column X against a 1-feature model, and a 2-row
H against a 1-row Y. -/
theorem shape_mismatch_errors_witness :
    hidden_nodes [[(1 : ℚ)]] [0] [[1, 2]] = .error .shapeMismatch ∧
    predict ⟨[[(1 : ℚ)]], [0], none⟩ [[1, 2]] = .error .shapeMismatch ∧
    solveCore (fun _ => [[(1 : ℚ), 1]]) [[(1 : ℚ)], [1]] [[1]] =
      .error .shapeMismatch :=
  shape_mismatch_errors [[(1 : ℚ)]] [0] [[1, 2]] ⟨[[(1 : ℚ)]], [0], none⟩
    (fun _ => [[(1 : ℚ), 1]]) [[(1 : ℚ)], [1]] [[1]]
    1 2 1 1 2 1 1 1
    (by decide) (by decide) (by decide) (by decide) (by decide)
    (by decide) (by decide) (by decide) (by decide) (by decide)

/- ### C6 -/

/-- C6: a successful second solve fully replaces `output_weights` with
a value computed from the latest data only, and predictions afterwards
do not depend on what any earlier solve had stored: two module states
that agree on W_in and b but carry different old `output_weights` end
up in the same state after the re-fit, so every subsequent `predict`
agrees. -/
theorem refit_replaces_output_weights
    (pinv : Val → Val) (σ1 σ2 : GState) (X2 Y2 : Val) (f hdim n c : Nat)
    (heqW : σ2.input_weights = σ1.input_weights) (heqb : σ2.biases = σ1.biases)
    (hW : HasShape σ1.input_weights f hdim) (hX : HasShape X2 n f) (hn : 0 < n)
    (hP : HasShape (pinv (reluVal (addBias (matMul X2 σ1.input_weights) σ1.biases)))
      hdim n)
    (hY : HasShape Y2 n c) (hh : 0 < hdim) :
    (solveRun pinv σ1 X2 Y2).1 =
      ⟨σ1.input_weights, σ1.biases,
       some (matMul
         (pinv (reluVal (addBias (matMul X2 σ1.input_weights) σ1.biases))) Y2)⟩ ∧
    (solveRun pinv σ2 X2 Y2).1 = (solveRun pinv σ1 X2 Y2).1 ∧
    ∀ X : Val, predict (solveRun pinv σ2 X2 Y2).1 X =
      predict (solveRun pinv σ1 X2 Y2).1 X := by
  have hsc : solveCore pinv
      (reluVal (addBias (matMul X2 σ1.input_weights) σ1.biases)) Y2 =
      .ok (matMul
        (pinv (reluVal (addBias (matMul X2 σ1.input_weights) σ1.biases))) Y2) := by
    have hc : Val.cols
        (pinv (reluVal (addBias (matMul X2 σ1.input_weights) σ1.biases)))
        = Y2.length := by
      rw [cols_of_hasShape hP hh, hY.1]
    simp [solveCore, npDot, hc]
  have h1 : (solveRun pinv σ1 X2 Y2).1 =
      ⟨σ1.input_weights, σ1.biases,
       some (matMul
         (pinv (reluVal (addBias (matMul X2 σ1.input_weights) σ1.biases))) Y2)⟩ := by
    simp [solveRun, hidden_nodes_ok hW hX hn, hsc]
  have h2 : (solveRun pinv σ2 X2 Y2).1 =
      ⟨σ1.input_weights, σ1.biases,
       some (matMul
         (pinv (reluVal (addBias (matMul X2 σ1.input_weights) σ1.biases))) Y2)⟩ := by
    simp [solveRun, heqW, heqb, hidden_nodes_ok hW hX hn, hsc]
  refine ⟨h1, by rw [h1, h2], fun X => by rw [h1, h2]⟩

/-- Witness for C6: re-fitting a previously fitted state and an
unfitted state with the same data lands both in the same fitted state,
and a concrete later prediction agrees. -/
theorem refit_replaces_output_weights_witness :
    (solveRun (fun _ => [[1]]) ⟨[[1]], [0], some [[9]]⟩ [[1]] [[2]]).1 =
      ⟨GState.input_weights ⟨[[1]], [0], some [[9]]⟩,
       GState.biases ⟨[[1]], [0], some [[9]]⟩,
       some (matMul
         ((fun _ => [[(1 : ℚ)]])
           (reluVal (addBias
             (matMul [[1]] (GState.input_weights ⟨[[1]], [0], some [[9]]⟩))
             (GState.biases ⟨[[1]], [0], some [[9]]⟩)))) [[2]])⟩ ∧
    (solveRun (fun _ => [[1]]) ⟨[[1]], [0], none⟩ [[1]] [[2]]).1 =
      (solveRun (fun _ => [[1]]) ⟨[[1]], [0], some [[9]]⟩ [[1]] [[2]]).1 ∧
    predict (solveRun (fun _ => [[1]]) ⟨[[1]], [0], none⟩ [[1]] [[2]]).1 [[5]] =
      predict (solveRun (fun _ => [[1]]) ⟨[[1]], [0], some [[9]]⟩ [[1]] [[2]]).1
        [[5]] :=
  ⟨(refit_replaces_output_weights (fun _ => [[1]]) ⟨[[1]], [0], some [[9]]⟩
      ⟨[[1]], [0], none⟩ [[1]] [[2]] 1 1 1 1 rfl rfl
      (by decide) (by decide) (by decide) (by decide) (by decide) (by decide)).1,
   (refit_replaces_output_weights (fun _ => [[1]]) ⟨[[1]], [0], some [[9]]⟩
      ⟨[[1]], [0], none⟩ [[1]] [[2]] 1 1 1 1 rfl rfl
      (by decide) (by decide) (by decide) (by decide) (by decide) (by decide)).2.1,
   (refit_replaces_output_weights (fun _ => [[1]]) ⟨[[1]], [0], some [[9]]⟩
      ⟨[[1]], [0], none⟩ [[1]] [[2]] 1 1 1 1 rfl rfl
      (by decide) (by decide) (by decide) (by decide) (by decide) (by decide)).2.2
     [[5]]⟩

/- ### C7 -/

/-- C7: no operation ever mutates `input_weights` or `biases`.  At the
heap level, `hidden_nodes` leaves the cells of W_in and b untouched
whether it succeeds or raises; the solve assignment rebinds only
`output_weights`, and when its right-hand side raises the module state
is left entirely unchanged; `predict` performs no assignment at all. -/
theorem parameters_never_mutated
    (σh : Heap) (w b x : Nat) (hw : w < σh.length) (hb : b < σh.length)
    (pinv : Val → Val) (σ : GState) (X Y Z : Val) :
    ((hidden_nodesS σh w b x).1.matAt w = σh.matAt w ∧
     (hidden_nodesS σh w b x).1.vecAt b = σh.vecAt b) ∧
    ((solveRun pinv σ X Y).1.input_weights = σ.input_weights ∧
     (solveRun pinv σ X Y).1.biases = σ.biases ∧
     ∀ e, (solveRun pinv σ X Y).2 = .error e → (solveRun pinv σ X Y).1 = σ) ∧
    (predictRun σ Z).1 = σ := by
  refine ⟨⟨?_, ?_⟩, ⟨(solveRun_preserves_params pinv σ X Y).1,
    (solveRun_preserves_params pinv σ X Y).2,
    fun e he => solveRun_error_id pinv σ X Y e he⟩, rfl⟩
  · unfold Heap.matAt
    rw [hidden_nodesS_frame σh w b x w hw]
  · unfold Heap.vecAt
    rw [hidden_nodesS_frame σh w b x b hb]

/-- Witness for C7 on a three-cell heap, with a solve whose Y has a
mismatched row count, so the failing branch is exercised too. -/
theorem parameters_never_mutated_witness :
    ((hidden_nodesS [Obj.mat [[1]], Obj.vec [0], Obj.mat [[2]]] 0 1 2).1.matAt 0 =
       Heap.matAt [Obj.mat [[1]], Obj.vec [0], Obj.mat [[2]]] 0 ∧
     (hidden_nodesS [Obj.mat [[1]], Obj.vec [0], Obj.mat [[2]]] 0 1 2).1.vecAt 1 =
       Heap.vecAt [Obj.mat [[1]], Obj.vec [0], Obj.mat [[2]]] 1) ∧
    ((solveRun (fun _ => [[1]]) ⟨[[1]], [0], none⟩ [[1]] [[1], [2]]).1.input_weights =
       GState.input_weights ⟨[[1]], [0], none⟩ ∧
     (solveRun (fun _ => [[1]]) ⟨[[1]], [0], none⟩ [[1]] [[1], [2]]).1.biases =
       GState.biases ⟨[[1]], [0], none⟩ ∧
     (solveRun (fun _ => [[1]]) ⟨[[1]], [0], none⟩ [[1]] [[1], [2]]).1 =
       ⟨[[1]], [0], none⟩) ∧
    (predictRun ⟨[[1]], [0], none⟩ [[3]]).1 = ⟨[[1]], [0], none⟩ :=
  ⟨(parameters_never_mutated [Obj.mat [[1]], Obj.vec [0], Obj.mat [[2]]] 0 1 2
      (by decide) (by decide) (fun _ => [[1]]) ⟨[[1]], [0], none⟩ [[1]]
      [[1], [2]] [[3]]).1,
   ⟨(parameters_never_mutated [Obj.mat [[1]], Obj.vec [0], Obj.mat [[2]]] 0 1 2
      (by decide) (by decide) (fun _ => [[1]]) ⟨[[1]], [0], none⟩ [[1]]
      [[1], [2]] [[3]]).2.1.1,
    (parameters_never_mutated [Obj.mat [[1]], Obj.vec [0], Obj.mat [[2]]] 0 1 2
      (by decide) (by decide) (fun _ => [[1]]) ⟨[[1]], [0], none⟩ [[1]]
      [[1], [2]] [[3]]).2.1.2.1,
    (parameters_never_mutated [Obj.mat [[1]], Obj.vec [0], Obj.mat [[2]]] 0 1 2
      (by decide) (by decide) (fun _ => [[1]]) ⟨[[1]], [0], none⟩ [[1]]
      [[1], [2]] [[3]]).2.1.2.2 Err.shapeMismatch (by rfl)⟩,
   (parameters_never_mutated [Obj.mat [[1]], Obj.vec [0], Obj.mat [[2]]] 0 1 2
      (by decide) (by decide) (fun _ => [[1]]) ⟨[[1]], [0], none⟩ [[1]]
      [[1], [2]] [[3]]).2.2⟩

/- ### C8 -/

/-- C8: the projection is deterministic and side-effect-free: two calls
reading identical `X`, `W_in` and `b` values (from possibly different
heaps) return identical output values, and no array that existed before
a call is observably modified by it. -/
theorem project_deterministic_side_effect_free
    (σ σ' : Heap) (w b x w' b' x' : Nat)
    (hb : b < σ.length) (hb' : b' < σ'.length)
    (hww : σ'.matAt w' = σ.matAt w) (hbb : σ'.vecAt b' = σ.vecAt b)
    (hxx : σ'.matAt x' = σ.matAt x) :
    hidden_value σ' w' b' x' = hidden_value σ w b x ∧
    (∀ j < σ.length,
      (hidden_nodesS σ w b x).1.getD j (Obj.mat []) = σ.getD j (Obj.mat [])) ∧
    (∀ j < σ'.length,
      (hidden_nodesS σ' w' b' x').1.getD j (Obj.mat []) = σ'.getD j (Obj.mat [])) := by
  refine ⟨?_, hidden_nodesS_frame σ w b x, hidden_nodesS_frame σ' w' b' x'⟩
  rw [hidden_value_eq σ w b x hb, hidden_value_eq σ' w' b' x' hb', hww, hbb, hxx]

/-- Witness for C8: two heaps that agree on the three arrays (the
second carries an extra unrelated cell) give equal projection values,
and the cell of X in the first heap is untouched. -/
theorem project_deterministic_side_effect_free_witness :
    hidden_value [Obj.mat [[1]], Obj.vec [0], Obj.mat [[2]], Obj.mat [[7]]] 0 1 2 =
      hidden_value [Obj.mat [[1]], Obj.vec [0], Obj.mat [[2]]] 0 1 2 ∧
    (hidden_nodesS [Obj.mat [[1]], Obj.vec [0], Obj.mat [[2]]] 0 1 2).1.getD 2
        (Obj.mat []) =
      List.getD [Obj.mat [[1]], Obj.vec [0], Obj.mat [[2]]] 2 (Obj.mat []) :=
  ⟨(project_deterministic_side_effect_free
      [Obj.mat [[1]], Obj.vec [0], Obj.mat [[2]]]
      [Obj.mat [[1]], Obj.vec [0], Obj.mat [[2]], Obj.mat [[7]]] 0 1 2 0 1 2
      (by decide) (by decide) rfl rfl rfl).1,
   (project_deterministic_side_effect_free
      [Obj.mat [[1]], Obj.vec [0], Obj.mat [[2]]]
      [Obj.mat [[1]], Obj.vec [0], Obj.mat [[2]], Obj.mat [[7]]] 0 1 2 0 1 2
      (by decide) (by decide) rfl rfl rfl).2.1 2 (by decide)⟩

/- ### C9 -/

/-- C9: each split is transformed with statistics fitted on that same
split: the train output uses statistics of the train features, the test
output uses statistics of the test features, and the test output is
entirely independent of the train split — training statistics are never
applied to the test split. -/
theorem splits_normalized_independently
    {S : Type} (fitStats : Val → S) (apply : S → Val → Val) (trainF testF : Val) :
    (prepFeatures fitStats apply trainF testF).1 = apply (fitStats trainF) trainF ∧
    (prepFeatures fitStats apply trainF testF).2 = apply (fitStats testF) testF ∧
    ∀ trainF2 : Val,
      (prepFeatures fitStats apply trainF2 testF).2 =
        (prepFeatures fitStats apply trainF testF).2 :=
  ⟨rfl, rfl, fun _ => rfl⟩

/- ### C10 -/

/-- C10: `relu` computes the elementwise maximum of the array and 0,
writes that result into the argument array itself, returns the very
same reference, and touches no other array. -/
theorem relu_mutates_argument_in_place (σ : Heap) (x : Nat) :
    (relu σ x).2 = x ∧
    (relu σ x).1.matAt x = reluVal (σ.matAt x) ∧
    ∀ j, j ≠ x → (relu σ x).1.getD j (Obj.mat []) = σ.getD j (Obj.mat []) := by
  refine ⟨rfl, ?_, ?_⟩
  · by_cases hx : x < σ.length
    · simp only [relu, Heap.write]
      exact matAt_set_self σ x _ hx
    · have hx0 := Nat.le_of_not_lt hx
      have hd : σ.matAt x = [] := by
        unfold Heap.matAt
        rw [List.getD_eq_default _ _ hx0]
      simp [relu, Heap.write, List.set_eq_of_length_le hx0, hd, reluVal]
  · intro j hj
    exact getD_set_ne _ _ hj

/-- Witness for C10 on a two-cell heap: the rectified value lands in
cell 0, the same reference comes back, and cell 1 is untouched. -/
theorem relu_mutates_argument_in_place_witness :
    (relu [Obj.mat [[-1, 2]], Obj.mat [[5]]] 0).2 = 0 ∧
    (relu [Obj.mat [[-1, 2]], Obj.mat [[5]]] 0).1.matAt 0 =
      reluVal (Heap.matAt [Obj.mat [[-1, 2]], Obj.mat [[5]]] 0) ∧
    (relu [Obj.mat [[-1, 2]], Obj.mat [[5]]] 0).1.getD 1 (Obj.mat []) =
      List.getD [Obj.mat [[-1, 2]], Obj.mat [[5]]] 1 (Obj.mat []) :=
  ⟨(relu_mutates_argument_in_place [Obj.mat [[-1, 2]], Obj.mat [[5]]] 0).1,
   (relu_mutates_argument_in_place [Obj.mat [[-1, 2]], Obj.mat [[5]]] 0).2.1,
   (relu_mutates_argument_in_place [Obj.mat [[-1, 2]], Obj.mat [[5]]] 0).2.2 1
     (by decide)⟩
